import Mathlib

/-!
Shallow embedding of `pycp/transfer.py`: the planning pass (`TransferInfo`),
the per-file transfer state machine (`FileTransferManager`), and the
orchestration layer (`TransferManager`).

Filesystem effects (opens, reads, writes, closes, removals, progress
callbacks, prompts) are recorded as an explicit event trace; the outcomes of
the filesystem queries a run performs (does the destination exist, do the
opens succeed, where does an IOError strike the stream) are supplied as an
explicit world record, so every function is executable and the claims can be
evaluated on concrete inputs.
-/

deriving instance DecidableEq for Except

namespace Pycp

/-! ### Path helpers (modelling os.path on POSIX)

Paths are plain strings.  `os.path.normpath` is modelled for inputs free of
`..` components (the planner claims never produce them): empty and `.`
components are collapsed.  `os.path.normcase` is the identity on POSIX.
-/

/-- Split a character list on `/` separators. -/
def splitOnSlash : List Char → List (List Char)
  | [] => [[]]
  | c :: rest =>
    let r := splitOnSlash rest
    if c = '/' then [] :: r
    else
      match r with
      | [] => [[c]]
      | h :: t => (c :: h) :: t

/-- Join components back with `/` separators. -/
def joinComps : List (List Char) → List Char
  | [] => []
  | [c] => c
  | c :: rest => c ++ '/' :: joinComps rest

/-- Models `os.path.normpath` (for inputs without `..` components). -/
def normpath (p : String) : String :=
  let comps := (splitOnSlash p.data).filter (fun c => !c.isEmpty && c ≠ ['.'])
  match p.data with
  | '/' :: _ => String.mk ('/' :: joinComps comps)
  | _ => if comps.isEmpty then "." else String.mk (joinComps comps)

/-- Models `os.path.basename`: the text after the last `/`. -/
def basename (p : String) : String :=
  String.mk ((splitOnSlash p.data).getLastD [])

/-- Models `os.path.join` for a relative second component. -/
def joinPath (a b : String) : String := a ++ "/" ++ b

/-- Models Python `f.startswith(".")`. -/
def startsWithDot (f : String) : Bool :=
  match f.data with
  | [] => false
  | c :: _ => c = '.'

/-- Lexicographic order on code points, as Python compares strings. -/
def leChars : List Char → List Char → Bool
  | [], _ => true
  | _ :: _, [] => false
  | a :: as, b :: bs =>
    if a.toNat < b.toNat then true
    else if b.toNat < a.toNat then false
    else leChars as bs

/-- String comparison used by `sorted`. -/
def leName (a b : String) : Bool := leChars a.data b.data

/-- Insert a string into a lexicographically sorted list. -/
def insertSorted (s : String) : List String → List String
  | [] => [s]
  | t :: rest => if leName s t then s :: t :: rest else t :: insertSorted s rest

/-- Models Python `sorted` on a list of names (lexicographic). -/
def sortNames : List String → List String
  | [] => []
  | s :: rest => insertSorted s (sortNames rest)

/-! ### Errors, options, events -/

/-- Models the `TransferError` exception: wraps an IOError message. -/
structure TransferError where
  message : String
deriving DecidableEq, Repr

/-- Options of `FileTransferManager.__init__` (all default to false). -/
structure TOptions where
  ignore_errors : Bool
  move : Bool
  safe : Bool
  interactive : Bool
deriving DecidableEq, Repr

/-- Position of a mid-stream IOError in `transfer_file`: the i-th read call
raises, or the write of the i-th chunk raises (0-based). -/
inductive StreamErr where
  | atRead (i : Nat)
  | atWrite (i : Nat)
deriving DecidableEq, Repr

/-- Observable actions of a transfer run, in the order they are performed. -/
inductive Ev where
  | warnSkip (dest : String)
  | prompt (dest : String)
  | rmDestForLink
  | symlinkCreate (target : String) (dest : String)
  | openSrc
  | openDest
  | closeSrc
  | closeDest
  | cb (n : Nat)
  | write (n : Nat)
  | chmod
  | warnFinalize
  | removeSrc
  | warnRemoveSrc
  | rmDestAfterError (ok : Bool)
  | newFile (src : String) (dest : String) (size : Nat)
  | fileDone
  | rmdir (d : String)
deriving DecidableEq, Repr

/-- The filesystem, as seen by one `FileTransferManager` run: the source and
destination paths and the outcome of every query and fallible operation the
run can perform.  `same` is the result of `samefile(src, dest)` (same device
and inode via `os.path.samefile`; equality of normalised paths on platforms
lacking it). -/
structure FWorld where
  src : String
  dest : String
  same : Bool
  srcIsLink : Bool
  linkTarget : String
  destLexists : Bool
  destExists : Bool
  srcOpenOk : Bool
  destOpenOk : Bool
  srcSize : Nat
  streamErr : Option StreamErr
  postOk : Bool
  removeSrcOk : Bool
  removeDestOk : Bool
  userInput : String
deriving DecidableEq, Repr

/-! ### Single-file transfer (`FileTransferManager`) -/

/-- Message raised by `check_same_file`. -/
def samefileMessage (src dest : String) : String :=
  s!"{src} and {dest} are the same file!"

/-- Models `check_same_file`: raises `TransferError` when `samefile` holds. -/
def check_same_file (same : Bool) (src dest : String) : Except TransferError Unit :=
  if same then Except.error ⟨samefileMessage src dest⟩ else Except.ok ()

/-- Models `handle_symlink`: remove any existing entry at `dest`, then create
a new symlink with the same target. -/
def handle_symlink (w : FWorld) : List Ev :=
  (if w.destLexists then [Ev.rmDestForLink] else []) ++
    [Ev.symlinkCreate w.linkTarget w.dest]

/-- Message raised when the source open fails. -/
def openReadMessage (src : String) : String :=
  s!"Could not open {src} for reading"

/-- Message raised when the destination open fails. -/
def openWriteMessage (dest : String) : String :=
  s!"Could not open {dest} for writing"

/-- Message wrapping a mid-stream IOError (the underlying cause is appended
in the Python code; it is omitted here). -/
def streamFailMessage (src dest : String) : String :=
  s!"Problem when transferring {src} to {dest}"

/-- Models `open_files`: open `src` for reading, then `dest` for writing;
either failure raises `TransferError`.  When the `dest` open fails, the
already-opened source handle is left open (no close is performed). -/
def open_files (w : FWorld) : Except TransferError Unit × List Ev :=
  if w.srcOpenOk = false then
    (Except.error ⟨openReadMessage w.src⟩, [])
  else if w.destOpenOk = false then
    (Except.error ⟨openWriteMessage w.dest⟩, [Ev.openSrc])
  else (Except.ok (), [Ev.openSrc, Ev.openDest])

/-- `buff_size = 100 * 1024` from `transfer_file`. -/
def buff_size : Nat := 100 * 1024

/-- One loop iteration has passed: shift a pending stream error. -/
def decStreamErr : Option StreamErr → Option StreamErr
  | none => none
  | some (StreamErr.atRead i) => some (StreamErr.atRead (i - 1))
  | some (StreamErr.atWrite i) => some (StreamErr.atWrite (i - 1))

/-- The read/write loop of `transfer_file`: read up to `buff_size` bytes; on
empty read, invoke the callback with 0 and stop; otherwise invoke the
callback with the chunk length, then write the chunk.  Returns whether the
loop completed without an IOError, plus the callback and write trace.  The
`fuel` argument only bounds the recursion; `run_stream` supplies enough. -/
def stream_fuel : Nat → Nat → Option StreamErr → Bool × List Ev
  | 0, _, _ => (true, [])
  | fuel + 1, remaining, err =>
    if err = some (StreamErr.atRead 0) then (false, [])
    else if remaining = 0 then (true, [Ev.cb 0])
    else
      let c := min buff_size remaining
      if err = some (StreamErr.atWrite 0) then (false, [Ev.cb c])
      else
        let r := stream_fuel fuel (remaining - c) (decStreamErr err)
        (r.1, Ev.cb c :: Ev.write c :: r.2)

/-- The stream loop on a source of `remaining` bytes.  Every iteration either
terminates or consumes at least one byte, so `remaining + 1` fuel suffices. -/
def run_stream (remaining : Nat) (err : Option StreamErr) : Bool × List Ev :=
  stream_fuel (remaining + 1) remaining err

/-- Models `FileTransferManager.transfer_file`: same-file guard, symlink
short-circuit, open both files, stream, close both handles, finalize
permissions (`post_transfer` with `preserve = False`, so chmod only; an
OSError there is a warning), and remove the source on a move (a failure
there is a warning). -/
def transfer_file (o : TOptions) (w : FWorld) : Except TransferError Unit × List Ev :=
  match check_same_file w.same w.src w.dest with
  | Except.error e => (Except.error e, [])
  | Except.ok _ =>
    if w.srcIsLink then
      (Except.ok (), handle_symlink w ++ [Ev.cb 0])
    else
      match open_files w with
      | (Except.error e, oevs) => (Except.error e, oevs)
      | (Except.ok _, oevs) =>
        let r := run_stream w.srcSize w.streamErr
        let evs := oevs ++ r.2 ++ [Ev.closeSrc, Ev.closeDest]
        if r.1 = false then
          (Except.error ⟨streamFailMessage w.src w.dest⟩, evs)
        else
          let pevs := if w.postOk then [Ev.chmod] else [Ev.warnFinalize]
          let mevs :=
            if o.move then
              if w.removeSrcOk then [Ev.removeSrc] else [Ev.warnRemoveSrc]
            else []
          (Except.ok (), evs ++ pevs ++ mevs)

/-- Models `FileTransferManager.handle_overwrite`: safe mode always skips
with a warning; non-interactive mode overwrites; interactive mode prompts
and proceeds only on the answer `y`. -/
def handle_overwrite (o : TOptions) (w : FWorld) : Bool × List Ev :=
  if o.safe then (true, [Ev.warnSkip w.dest])
  else if o.interactive = false then (false, [])
  else if w.userInput = "y" then (false, [Ev.prompt w.dest])
  else (true, [Ev.prompt w.dest])

/-- The try/except block of `FileTransferManager.do_transfer`: run
`transfer_file`; on `TransferError`, either return it as data (removing the
destination first unless this is a move; that removal swallows OSError) when
`ignore_errors` is set, or re-raise. -/
def run_transfer (o : TOptions) (w : FWorld) (oevs : List Ev) :
    Except TransferError (Option TransferError) × List Ev :=
  match transfer_file o w with
  | (Except.ok _, tevs) => (Except.ok none, oevs ++ tevs)
  | (Except.error e, tevs) =>
    if o.ignore_errors then
      if o.move = false then
        (Except.ok (some e), oevs ++ tevs ++ [Ev.rmDestAfterError w.removeDestOk])
      else (Except.ok (some e), oevs ++ tevs)
    else (Except.error e, oevs ++ tevs)

/-- Models `FileTransferManager.do_transfer`: when the destination exists,
consult the overwrite policy first and return (no error) on a skip; then run
the transfer with the error tolerance of `run_transfer`.  `Except.ok none`
is Python returning `None` (skip or success), `Except.ok (some e)` is a
tolerated error returned as data, `Except.error e` is a raised exception. -/
def do_transfer (o : TOptions) (w : FWorld) :
    Except TransferError (Option TransferError) × List Ev :=
  if w.destExists then
    match handle_overwrite o w with
    | (true, oevs) => (Except.ok none, oevs)
    | (false, oevs) => run_transfer o w oevs
  else run_transfer o w []

/-! ### Planner (`TransferInfo`)

The source filesystem is an inductive tree.  A symlink to a file carries both
the target size (what `os.path.getsize` reports, since it follows links) and
the link's own size; a symlink to a directory carries the listing of its
target, because `os.path.isdir` and `os.listdir` follow links. -/

/-- A node of the source filesystem. -/
inductive FsNode where
  | file (size : Nat)
  | symlinkFile (targetSize : Nat) (linkSize : Nat)
  | dir (children : List (String × FsNode))
  | symlinkDir (children : List (String × FsNode)) (linkSize : Nat)
  | other

/-- Models `os.path.isfile` (follows symlinks); `none` is a missing path. -/
def isfile : Option FsNode → Bool
  | some (FsNode.file _) => true
  | some (FsNode.symlinkFile _ _) => true
  | _ => false

/-- Models `os.path.isdir` (follows symlinks). -/
def isdir : Option FsNode → Bool
  | some (FsNode.dir _) => true
  | some (FsNode.symlinkDir _ _) => true
  | _ => false

/-- Models `os.path.islink`. -/
def islink : Option FsNode → Bool
  | some (FsNode.symlinkFile _ _) => true
  | some (FsNode.symlinkDir _ _) => true
  | _ => false

/-- Models `os.path.getsize`, which follows symlinks: on a symlink to a file
it reports the target's size, not the link's own size. -/
def optGetsize : Option FsNode → Nat
  | some (FsNode.file n) => n
  | some (FsNode.symlinkFile t _) => t
  | _ => 0

/-- The destination filesystem seen by the planner: which destination paths
exist as directories and which as non-directories. -/
structure DestFs where
  dirs : List String
  files : List String
deriving DecidableEq, Repr

/-- Models `os.path.isdir` on the destination side. -/
def DestFs.isdir (fs : DestFs) (p : String) : Bool := fs.dirs.contains p

/-- Models `os.path.exists` on the destination side. -/
def DestFs.pathExists (fs : DestFs) (p : String) : Bool :=
  fs.dirs.contains p || fs.files.contains p

/-- Models `os.mkdir` on the destination side. -/
def DestFs.mkdir (fs : DestFs) (p : String) : DestFs :=
  { fs with dirs := p :: fs.dirs }

/-- State of a `TransferInfo` object, plus the destination filesystem the
planning pass mutates through `os.mkdir`. -/
structure TransferInfo where
  all_files : Bool
  size : Nat
  to_transfer : List (String × String × Nat)
  to_remove : List String
  destFs : DestFs
deriving DecidableEq, Repr

/-- Models `TransferInfo.add`: record `(src, dest, getsize src)` and add the
size to the running total unless the source is a symlink. -/
def TransferInfo.add (st : TransferInfo) (src : String) (node : Option FsNode)
    (dest : String) : TransferInfo :=
  let file_size := optGetsize node
  let st :=
    if islink node = false then { st with size := st.size + file_size } else st
  { st with to_transfer := st.to_transfer ++ [(src, dest, file_size)] }

/-- Models `TransferInfo._parse_file`: when the destination is an existing
directory, append the source's basename; then `add`. -/
def parse_file (source : String) (node : Option FsNode) (destination : String)
    (st : TransferInfo) : TransferInfo :=
  let destination :=
    if st.destFs.isdir destination then
      joinPath destination (basename (normpath source))
    else destination
  st.add source node destination

/-- Models `os.listdir` followed by the per-name filesystem query that
`TransferInfo.parse` performs on each child path. -/
def lookupChild (children : List (String × FsNode)) (name : String) :
    Option FsNode :=
  (children.find? (fun c => c.1 = name)).map (fun c => c.2)

/-- The body of `TransferInfo._parse_dir` once the source is known to be a
directory (or a symlink to one) with listing `children`: fix up the
destination, create it if missing, sort the child names, drop hidden names
unless `all_files`, recurse through `parseRec` on the joined child paths,
and finally append the source to the removal list. -/
def parse_dir_core
    (parseRec : List (String × Option FsNode) → String → TransferInfo → TransferInfo)
    (source : String) (children : List (String × FsNode)) (destination : String)
    (st : TransferInfo) : TransferInfo :=
  let destination :=
    if st.destFs.isdir destination then
      joinPath destination (basename (normpath source))
    else destination
  let st :=
    if st.destFs.pathExists destination = false then
      { st with destFs := st.destFs.mkdir destination }
    else st
  let file_names := sortNames (children.map (fun c => c.1))
  let file_names :=
    if st.all_files = false then
      file_names.filter (fun f => startsWithDot f = false)
    else file_names
  let entries := file_names.map (fun f => (joinPath source f, lookupChild children f))
  let st := parseRec entries destination st
  { st with to_remove := st.to_remove ++ [source] }

/-- Models `TransferInfo._parse_dir`: dispatch on the node found at the
source path (`os.listdir` follows a symlink to a directory). -/
def parse_dir
    (parseRec : List (String × Option FsNode) → String → TransferInfo → TransferInfo)
    (source : String) (node : Option FsNode) (destination : String)
    (st : TransferInfo) : TransferInfo :=
  match node with
  | some (FsNode.dir children) => parse_dir_core parseRec source children destination st
  | some (FsNode.symlinkDir children _) =>
    parse_dir_core parseRec source children destination st
  | _ => st

/-- Models `TransferInfo.parse`: partition the sources into files
(`os.path.isfile`) and directories (`os.path.isdir`), parse the files first
and then the directories.  A source that is neither is not handled by either
pass.  `fuel` only bounds the recursion depth; a source with `none` or
`other` node never recurses. -/
def parse (fuel : Nat) (sources : List (String × Option FsNode))
    (destination : String) (st : TransferInfo) : TransferInfo :=
  match fuel with
  | 0 => st
  | fuel + 1 =>
    let filenames := sources.filter (fun x => isfile x.2)
    let directories := sources.filter (fun x => isdir x.2)
    let st := filenames.foldl (fun st x => parse_file x.1 x.2 destination st) st
    directories.foldl (fun st x => parse_dir (parse fuel) x.1 x.2 destination st) st

/-- Models `TransferInfo.__init__`: initialize the state and run `parse`. -/
def mkTransferInfo (fuel : Nat) (sources : List (String × Option FsNode))
    (destination : String) (destFs : DestFs) (all_files : Bool) : TransferInfo :=
  parse fuel sources destination
    { all_files := all_files, size := 0, to_transfer := [], to_remove := [],
      destFs := destFs }

/-- Models line 309 of `TransferManager.__init__`: it constructs
`TransferInfo(sources, destination)` without forwarding its own `all_files`
argument, so the planner always runs with the default `all_files = False`. -/
def TransferManager.mkInfo (fuel : Nat) (sources : List (String × Option FsNode))
    (destination : String) (destFs : DestFs) (all_files : Bool) : TransferInfo :=
  mkTransferInfo fuel sources destination destFs false

/-! ### Orchestrator (`TransferManager.do_transfer`) -/

/-- The per-item loop of `TransferManager.do_transfer`: for each planned
item, notify the progress indicator of the new file, run the single-file
transfer, notify the file done, and record a returned error under the
source path.  A raised `TransferError` propagates at once: the remaining
items do not run and no `on_file_done` is emitted for the raising item.
Each planned size is paired with the `FWorld` describing how the filesystem
answers that item's transfer.  Returns (raised exception if any, collected
errors, event trace). -/
def run_items (o : TOptions) :
    List (FWorld × Nat) → Option TransferError × List (String × TransferError) × List Ev
  | [] => (none, [], [])
  | (w, size) :: rest =>
    match do_transfer o w with
    | (Except.error e, tevs) => (some e, [], Ev.newFile w.src w.dest size :: tevs)
    | (Except.ok errOpt, tevs) =>
      let r := run_items o rest
      let errs :=
        match errOpt with
        | some e => (w.src, e) :: r.2.1
        | none => r.2.1
      (r.1, errs, Ev.newFile w.src w.dest size :: tevs ++ [Ev.fileDone] ++ r.2.2)

/-- The removal loop after a move: `os.rmdir` each recorded directory in
order; the first failure raises an uncaught OSError, aborting the loop. -/
def rmdir_loop : List String → (String → Bool) → Option String × List Ev
  | [], _ => (none, [])
  | d :: rest, ok =>
    if ok d then
      let r := rmdir_loop rest ok
      (r.1, Ev.rmdir d :: r.2)
    else (some d, [])

/-- Outcome of a whole `TransferManager.do_transfer` run. -/
structure RunResult where
  raised : Option TransferError
  rmdirFailed : Option String
  errors : List (String × TransferError)
  events : List Ev
deriving DecidableEq, Repr

/-- Models `TransferManager.do_transfer`: run every planned item, then, only
when the run is a move and `ignore_errors` is false, remove the recorded
source directories in order.  `rmdirOk` tells which `os.rmdir` calls
succeed. -/
def TransferManager.do_transfer (o : TOptions) (items : List (FWorld × Nat))
    (to_remove : List String) (rmdirOk : String → Bool) : RunResult :=
  let r := run_items o items
  match r.1 with
  | some e => { raised := some e, rmdirFailed := none, errors := r.2.1, events := r.2.2 }
  | none =>
    if o.move && !o.ignore_errors then
      let rm := rmdir_loop to_remove rmdirOk
      { raised := none, rmdirFailed := rm.1, errors := r.2.1, events := r.2.2 ++ rm.2 }
    else { raised := none, rmdirFailed := none, errors := r.2.1, events := r.2.2 }

/-! ### Stream-loop lemmas -/

/-- Events that can appear inside the read/write loop. -/
def isStreamEv : Ev → Bool
  | Ev.cb _ => true
  | Ev.write _ => true
  | _ => false

theorem stream_fuel_stream_evs (fuel : Nat) :
    ∀ (n : Nat) (err : Option StreamErr), ∀ ev ∈ (stream_fuel fuel n err).2,
      isStreamEv ev = true := by
  induction fuel with
  | zero => intro n err ev h; simp [stream_fuel] at h
  | succ fuel ih =>
    intro n err ev h
    simp only [stream_fuel] at h
    split at h
    · simp at h
    · split at h
      · simp at h; subst h; rfl
      · split at h
        · simp at h; subst h; rfl
        · simp only [List.mem_cons] at h
          rcases h with h | h | h
          · subst h; rfl
          · subst h; rfl
          · exact ih _ _ ev h

/-- The callback/write trace of one chunk list. -/
def evPairs : List Nat → List Ev
  | [] => []
  | k :: rest => Ev.cb k :: Ev.write k :: evPairs rest

/-- The chunk lengths the stream loop reads from an `n`-byte file: full
`buff_size` chunks followed by the remainder. -/
def chunkSizes (n : Nat) : List Nat :=
  List.replicate (n / buff_size) buff_size ++
    (if n % buff_size = 0 then [] else [n % buff_size])

theorem buff_size_pos : 0 < buff_size := by norm_num [buff_size]

theorem chunkSizes_zero : chunkSizes 0 = [] := by simp [chunkSizes]

theorem chunkSizes_cons (n : Nat) (hn : n ≠ 0) :
    chunkSizes n = min buff_size n :: chunkSizes (n - min buff_size n) := by
  rcases Nat.lt_or_ge n buff_size with h | h
  · have hmin : min buff_size n = n := Nat.min_eq_right (Nat.le_of_lt h)
    have hdiv : n / buff_size = 0 := Nat.div_eq_of_lt h
    have hmod : n % buff_size = n := Nat.mod_eq_of_lt h
    rw [hmin, Nat.sub_self]
    unfold chunkSizes
    rw [hdiv, hmod]
    simp [hn]
  · have hmin : min buff_size n = buff_size := Nat.min_eq_left h
    have hdiv : n / buff_size = (n - buff_size) / buff_size + 1 :=
      Nat.div_eq_sub_div buff_size_pos h
    have hmod : n % buff_size = (n - buff_size) % buff_size :=
      Nat.mod_eq_sub_mod h
    rw [hmin]
    unfold chunkSizes
    rw [hdiv, hmod, List.replicate_succ, List.cons_append]

theorem chunkSizes_pos (n : Nat) : ∀ k ∈ chunkSizes n, 0 < k ∧ k ≤ buff_size := by
  intro k h
  simp only [chunkSizes, List.mem_append, List.mem_replicate] at h
  rcases h with ⟨-, rfl⟩ | h
  · exact ⟨buff_size_pos, Nat.le_refl _⟩
  · split at h
    · simp at h
    · rename_i hne
      simp only [List.mem_singleton] at h
      subst h
      exact ⟨Nat.pos_of_ne_zero hne, Nat.le_of_lt (Nat.mod_lt _ buff_size_pos)⟩

theorem chunkSizes_dropLast (n : Nat) :
    ∀ k ∈ (chunkSizes n).dropLast, k = buff_size := by
  intro k h
  unfold chunkSizes at h
  split at h
  · rw [List.append_nil] at h
    have := List.mem_of_mem_dropLast h
    exact (List.mem_replicate.mp this).2
  · rw [List.dropLast_concat] at h
    exact (List.mem_replicate.mp h).2

theorem replicate_sum (q v : Nat) : (List.replicate q v).sum = v * q := by
  induction q with
  | zero => simp
  | succ q ih =>
    simp only [List.replicate_succ, List.sum_cons, ih]
    ring

theorem chunkSizes_sum (n : Nat) : (chunkSizes n).sum = n := by
  have h := Nat.div_add_mod n buff_size
  unfold chunkSizes
  split
  · rename_i h0
    simp only [List.append_nil, replicate_sum]
    omega
  · simp only [List.sum_append, replicate_sum, List.sum_cons, List.sum_nil]
    omega

theorem stream_fuel_none (fuel : Nat) :
    ∀ n : Nat, n < fuel →
      stream_fuel fuel n none = (true, evPairs (chunkSizes n) ++ [Ev.cb 0]) := by
  induction fuel with
  | zero => intro n hn; omega
  | succ fuel ih =>
    intro n hn
    by_cases h0 : n = 0
    · subst h0
      simp [stream_fuel, chunkSizes_zero, evPairs]
    · have hc : 0 < min buff_size n :=
        Nat.lt_min.mpr ⟨buff_size_pos, Nat.pos_of_ne_zero h0⟩
      have hrec : n - min buff_size n < fuel := by omega
      simp only [stream_fuel, decStreamErr, h0, if_false, ih _ hrec]
      rw [chunkSizes_cons n h0]
      simp [evPairs]

theorem run_stream_none (n : Nat) :
    run_stream n none = (true, evPairs (chunkSizes n) ++ [Ev.cb 0]) :=
  stream_fuel_none (n + 1) n (Nat.lt_succ_self n)

theorem evPairs_evs (ks : List Nat) :
    ∀ ev ∈ evPairs ks, (∃ k, ev = Ev.cb k ∧ k ∈ ks) ∨ ∃ k, ev = Ev.write k ∧ k ∈ ks := by
  induction ks with
  | nil => intro ev h; simp [evPairs] at h
  | cons k rest ih =>
    intro ev h
    simp only [evPairs, List.mem_cons] at h
    rcases h with h | h | h
    · exact Or.inl ⟨k, h, List.mem_cons_self _ _⟩
    · exact Or.inr ⟨k, h, List.mem_cons_self _ _⟩
    · rcases ih ev h with ⟨k', hk', hm⟩ | ⟨k', hk', hm⟩
      · exact Or.inl ⟨k', hk', List.mem_cons_of_mem _ hm⟩
      · exact Or.inr ⟨k', hk', List.mem_cons_of_mem _ hm⟩

theorem cb_zero_not_in_evPairs (ks : List Nat) (hpos : ∀ k ∈ ks, 0 < k) :
    Ev.cb 0 ∉ evPairs ks := by
  intro h
  rcases evPairs_evs ks _ h with ⟨k, hk, hm⟩ | ⟨k, hk, hm⟩
  · cases hk; exact Nat.lt_irrefl 0 (hpos _ hm)
  · cases hk

/-! ### Case descriptions of the single-file transfer -/

theorem transfer_file_same (o : TOptions) (w : FWorld) (h : w.same = true) :
    transfer_file o w = (Except.error ⟨samefileMessage w.src w.dest⟩, []) := by
  simp [transfer_file, check_same_file, h]

theorem transfer_file_link (o : TOptions) (w : FWorld)
    (h1 : w.same = false) (h2 : w.srcIsLink = true) :
    transfer_file o w =
      (Except.ok (), (if w.destLexists then [Ev.rmDestForLink] else []) ++
        [Ev.symlinkCreate w.linkTarget w.dest, Ev.cb 0]) := by
  simp [transfer_file, check_same_file, handle_symlink, h1, h2]

theorem transfer_file_noSrcOpen (o : TOptions) (w : FWorld)
    (h1 : w.same = false) (h2 : w.srcIsLink = false) (h3 : w.srcOpenOk = false) :
    transfer_file o w = (Except.error ⟨openReadMessage w.src⟩, []) := by
  simp [transfer_file, check_same_file, open_files, h1, h2, h3]

theorem transfer_file_noDestOpen (o : TOptions) (w : FWorld)
    (h1 : w.same = false) (h2 : w.srcIsLink = false) (h3 : w.srcOpenOk = true)
    (h4 : w.destOpenOk = false) :
    transfer_file o w = (Except.error ⟨openWriteMessage w.dest⟩, [Ev.openSrc]) := by
  simp [transfer_file, check_same_file, open_files, h1, h2, h3, h4]

theorem transfer_file_stream_fail (o : TOptions) (w : FWorld)
    (h1 : w.same = false) (h2 : w.srcIsLink = false) (h3 : w.srcOpenOk = true)
    (h4 : w.destOpenOk = true) (h5 : (run_stream w.srcSize w.streamErr).1 = false) :
    transfer_file o w =
      (Except.error ⟨streamFailMessage w.src w.dest⟩,
        [Ev.openSrc, Ev.openDest] ++ (run_stream w.srcSize w.streamErr).2 ++
          [Ev.closeSrc, Ev.closeDest]) := by
  simp [transfer_file, check_same_file, open_files, h1, h2, h3, h4, h5]

theorem transfer_file_stream_ok (o : TOptions) (w : FWorld)
    (h1 : w.same = false) (h2 : w.srcIsLink = false) (h3 : w.srcOpenOk = true)
    (h4 : w.destOpenOk = true) (h5 : (run_stream w.srcSize w.streamErr).1 = true) :
    transfer_file o w =
      (Except.ok (),
        [Ev.openSrc, Ev.openDest] ++ (run_stream w.srcSize w.streamErr).2 ++
          [Ev.closeSrc, Ev.closeDest] ++
          (if w.postOk then [Ev.chmod] else [Ev.warnFinalize]) ++
          (if o.move then
            if w.removeSrcOk then [Ev.removeSrc] else [Ev.warnRemoveSrc]
          else [])) := by
  simp [transfer_file, check_same_file, open_files, h1, h2, h3, h4, h5]

/-- Events the body of `transfer_file` can emit. -/
def isTransferEv : Ev → Bool
  | Ev.rmDestForLink => true
  | Ev.symlinkCreate _ _ => true
  | Ev.openSrc => true
  | Ev.openDest => true
  | Ev.closeSrc => true
  | Ev.closeDest => true
  | Ev.cb _ => true
  | Ev.write _ => true
  | Ev.chmod => true
  | Ev.warnFinalize => true
  | Ev.removeSrc => true
  | Ev.warnRemoveSrc => true
  | _ => false

theorem isStreamEv_isTransferEv (ev : Ev) (h : isStreamEv ev = true) :
    isTransferEv ev = true := by
  cases ev <;> first | rfl | exact absurd h (by simp [isStreamEv])

theorem transfer_file_evs (o : TOptions) (w : FWorld) :
    ∀ ev ∈ (transfer_file o w).2, isTransferEv ev = true := by
  intro ev h
  by_cases h1 : w.same = true
  · rw [transfer_file_same o w h1] at h
    simp at h
  · rw [Bool.not_eq_true] at h1
    by_cases h2 : w.srcIsLink = true
    · rw [transfer_file_link o w h1 h2] at h
      rcases List.mem_append.mp h with h | h
      · split at h <;> simp at h
        subst h; rfl
      · simp at h
        rcases h with h | h <;> (subst h; rfl)
    · rw [Bool.not_eq_true] at h2
      by_cases h3 : w.srcOpenOk = true
      · by_cases h4 : w.destOpenOk = true
        · have hstream := stream_fuel_stream_evs (w.srcSize + 1) w.srcSize w.streamErr
          by_cases h5 : (run_stream w.srcSize w.streamErr).1 = true
          · rw [transfer_file_stream_ok o w h1 h2 h3 h4 h5] at h
            rcases List.mem_append.mp h with h | h
            · rcases List.mem_append.mp h with h | h
              · rcases List.mem_append.mp h with h | h
                · rcases List.mem_append.mp h with h | h
                  · simp at h; rcases h with h | h <;> (subst h; rfl)
                  · exact isStreamEv_isTransferEv ev (hstream ev h)
                · simp at h; rcases h with h | h <;> (subst h; rfl)
              · split at h <;> (simp at h; subst h; rfl)
            · split at h
              · split at h <;> (simp at h; subst h; rfl)
              · simp at h
          · rw [Bool.not_eq_true] at h5
            rw [transfer_file_stream_fail o w h1 h2 h3 h4 h5] at h
            rcases List.mem_append.mp h with h | h
            · rcases List.mem_append.mp h with h | h
              · simp at h; rcases h with h | h <;> (subst h; rfl)
              · exact isStreamEv_isTransferEv ev (hstream ev h)
            · simp at h; rcases h with h | h <;> (subst h; rfl)
        · rw [Bool.not_eq_true] at h4
          rw [transfer_file_noDestOpen o w h1 h2 h3 h4] at h
          simp at h; subst h; rfl
      · rw [Bool.not_eq_true] at h3
        rw [transfer_file_noSrcOpen o w h1 h2 h3] at h
        simp at h

/-! ### Case descriptions of `do_transfer` -/

theorem run_transfer_ok (o : TOptions) (w : FWorld) (oevs : List Ev)
    (h : (transfer_file o w).1 = Except.ok ()) :
    run_transfer o w oevs = (Except.ok none, oevs ++ (transfer_file o w).2) := by
  unfold run_transfer
  rcases htf : transfer_file o w with ⟨r, tevs⟩
  rw [htf] at h
  simp only at h
  subst h
  rfl

theorem run_transfer_err (o : TOptions) (w : FWorld) (oevs : List Ev)
    (e : TransferError) (h : (transfer_file o w).1 = Except.error e) :
    run_transfer o w oevs =
      if o.ignore_errors then
        if o.move = false then
          (Except.ok (some e),
            oevs ++ (transfer_file o w).2 ++ [Ev.rmDestAfterError w.removeDestOk])
        else (Except.ok (some e), oevs ++ (transfer_file o w).2)
      else (Except.error e, oevs ++ (transfer_file o w).2) := by
  unfold run_transfer
  rcases htf : transfer_file o w with ⟨r, tevs⟩
  rw [htf] at h
  simp only at h
  subst h
  by_cases hig : o.ignore_errors = true <;> by_cases hmv : o.move = true <;>
    simp [hig, hmv]

theorem do_transfer_eq (o : TOptions) (w : FWorld) :
    do_transfer o w =
      if w.destExists then
        if (handle_overwrite o w).1 then (Except.ok none, (handle_overwrite o w).2)
        else run_transfer o w (handle_overwrite o w).2
      else run_transfer o w [] := by
  unfold do_transfer
  rcases hov : handle_overwrite o w with ⟨b, oevs⟩
  cases b <;> simp

theorem handle_overwrite_evs (o : TOptions) (w : FWorld) :
    ∀ ev ∈ (handle_overwrite o w).2,
      ev = Ev.warnSkip w.dest ∨ ev = Ev.prompt w.dest := by
  intro ev h
  unfold handle_overwrite at h
  split_ifs at h <;> simp at h <;> simp [h]

theorem handle_overwrite_skip (o : TOptions) (w : FWorld)
    (h : o.safe = true ∨ (o.interactive = true ∧ w.userInput ≠ "y")) :
    (handle_overwrite o w).1 = true := by
  unfold handle_overwrite
  rcases h with hs | ⟨hi, hy⟩
  · simp [hs]
  · by_cases hs : o.safe = true
    · simp [hs]
    · rw [Bool.not_eq_true] at hs
      simp [hs, hi, hy]

theorem handle_overwrite_proceed (o : TOptions) (w : FWorld)
    (hs : o.safe = false) (hio : o.interactive = false ∨ w.userInput = "y") :
    (handle_overwrite o w).1 = false := by
  unfold handle_overwrite
  rcases hio with hi | hy
  · simp [hs, hi]
  · by_cases hi : o.interactive = false
    · simp [hs, hi]
    · simp [hs, hi, hy]

theorem run_transfer_evs (o : TOptions) (w : FWorld) (oevs : List Ev) :
    ∀ ev ∈ (run_transfer o w oevs).2,
      ev ∈ oevs ∨ ev ∈ (transfer_file o w).2 ∨
        ev = Ev.rmDestAfterError w.removeDestOk := by
  intro ev h
  unfold run_transfer at h
  rcases htf : transfer_file o w with ⟨r, tevs⟩
  have htevs : tevs = (transfer_file o w).2 := by rw [htf]
  rw [htf] at h
  cases r with
  | ok u =>
    simp only at h
    rcases List.mem_append.mp h with h | h
    · exact Or.inl h
    · exact Or.inr (Or.inl (htevs ▸ h))
  | error e =>
    simp only at h
    split at h
    · split at h
      · rcases List.mem_append.mp h with h | h
        · rcases List.mem_append.mp h with h | h
          · exact Or.inl h
          · exact Or.inr (Or.inl (htevs ▸ h))
        · simp at h
          exact Or.inr (Or.inr h)
      · rcases List.mem_append.mp h with h | h
        · exact Or.inl h
        · exact Or.inr (Or.inl (htevs ▸ h))
    · rcases List.mem_append.mp h with h | h
      · exact Or.inl h
      · exact Or.inr (Or.inl (htevs ▸ h))

theorem do_transfer_evs (o : TOptions) (w : FWorld) :
    ∀ ev ∈ (do_transfer o w).2,
      ev = Ev.warnSkip w.dest ∨ ev = Ev.prompt w.dest ∨
        ev ∈ (transfer_file o w).2 ∨
        ev = Ev.rmDestAfterError w.removeDestOk := by
  intro ev h
  rw [do_transfer_eq] at h
  split at h
  · split at h
    · rcases handle_overwrite_evs o w ev h with h | h
      · exact Or.inl h
      · exact Or.inr (Or.inl h)
    · rcases run_transfer_evs o w _ ev h with h | h | h
      · rcases handle_overwrite_evs o w ev h with h | h
        · exact Or.inl h
        · exact Or.inr (Or.inl h)
      · exact Or.inr (Or.inr (Or.inl h))
      · exact Or.inr (Or.inr (Or.inr h))
  · rcases run_transfer_evs o w [] ev h with h | h | h
    · simp at h
    · exact Or.inr (Or.inr (Or.inl h))
    · exact Or.inr (Or.inr (Or.inr h))

theorem rmDestAfterError_not_in_transfer_file (o : TOptions) (w : FWorld) (b : Bool) :
    Ev.rmDestAfterError b ∉ (transfer_file o w).2 := by
  intro h
  have := transfer_file_evs o w _ h
  simp [isTransferEv] at this

theorem rmdir_not_in_do_transfer (o : TOptions) (w : FWorld) (d : String) :
    Ev.rmdir d ∉ (do_transfer o w).2 := by
  intro h
  rcases do_transfer_evs o w _ h with h | h | h | h
  · cases h
  · cases h
  · have := transfer_file_evs o w _ h
    simp [isTransferEv] at this
  · cases h

theorem rmdir_not_in_run_items (o : TOptions) (items : List (FWorld × Nat)) (d : String) :
    Ev.rmdir d ∉ (run_items o items).2.2 := by
  induction items with
  | nil => simp [run_items]
  | cons it rest ih =>
    rcases it with ⟨w, size⟩
    intro h
    unfold run_items at h
    rcases hdt : do_transfer o w with ⟨r, tevs⟩
    have htevs : tevs = (do_transfer o w).2 := by rw [hdt]
    rw [hdt] at h
    cases r with
    | error e =>
      simp only [List.mem_cons] at h
      rcases h with h | h
      · cases h
      · exact rmdir_not_in_do_transfer o w d (htevs ▸ h)
    | ok errOpt =>
      simp only [List.mem_cons, List.mem_append] at h
      rcases h with ((h | h) | (h | h)) | h
      · cases h
      · exact rmdir_not_in_do_transfer o w d (htevs ▸ h)
      · cases h
      · simp at h
      · exact ih h

theorem rmdir_loop_all_ok (l : List String) (ok : String → Bool)
    (h : ∀ d ∈ l, ok d = true) :
    rmdir_loop l ok = (none, l.map Ev.rmdir) := by
  induction l with
  | nil => rfl
  | cons d rest ih =>
    have hd : ok d = true := h d (List.mem_cons_self _ _)
    simp [rmdir_loop, hd, ih (fun x hx => h x (List.mem_cons_of_mem _ hx))]

theorem run_transfer_err_fst (o : TOptions) (w : FWorld) (oevs : List Ev)
    (e : TransferError) (h : (transfer_file o w).1 = Except.error e) :
    (run_transfer o w oevs).1 =
      if o.ignore_errors then Except.ok (some e) else Except.error e := by
  rw [run_transfer_err o w oevs e h]
  by_cases hig : o.ignore_errors = true
  · by_cases hmv : o.move = true <;> simp [hig, hmv]
  · rw [Bool.not_eq_true] at hig
    simp [hig]

/-! ### Claim C1 -/

/-- C1, counterexample to the claim as stated: source and destination are
the same file, the destination exists and the run is in safe mode; the
transfer completes as a skip (`None` is returned, only a skip warning is
printed) instead of failing with the same-file `TransferError`. -/
theorem C1_counterexample :
    do_transfer ⟨false, false, true, false⟩
        ⟨"f", "f", true, false, "", true, true, true, true, 3, none, true, true, true, ""⟩ =
      (Except.ok none, [Ev.warnSkip "f"]) := by
  decide

/-- C1 (amended): when source and destination are the same file, no write,
destination open, or symlink creation ever happens; but the same-file guard
only runs when the overwrite policy lets the transfer proceed: in safe mode
(or on an interactive decline) an existing destination is skipped without
error, while in every proceeding mode (silent overwrite, interactive `y`,
or non-existing destination report) the transfer fails with the same-file
`TransferError`, raised or returned as data according to `ignore_errors`. -/
theorem C1_same_file_guard (o : TOptions) (w : FWorld) (hsame : w.same = true) :
    ((∀ n, Ev.write n ∉ (do_transfer o w).2) ∧ Ev.openDest ∉ (do_transfer o w).2 ∧
      ∀ t d, Ev.symlinkCreate t d ∉ (do_transfer o w).2) ∧
    (w.destExists = true →
      o.safe = true ∨ (o.interactive = true ∧ w.userInput ≠ "y") →
      (do_transfer o w).1 = Except.ok none) ∧
    (w.destExists = false ∨ (o.safe = false ∧ (o.interactive = false ∨ w.userInput = "y")) →
      (do_transfer o w).1 =
        if o.ignore_errors then Except.ok (some ⟨samefileMessage w.src w.dest⟩)
        else Except.error ⟨samefileMessage w.src w.dest⟩) := by
  have htf := transfer_file_same o w hsame
  have htf1 : (transfer_file o w).1 = Except.error ⟨samefileMessage w.src w.dest⟩ := by
    rw [htf]
  refine ⟨⟨?_, ?_, ?_⟩, ?_, ?_⟩
  · intro n hmem
    rcases do_transfer_evs o w _ hmem with h | h | h | h
    · cases h
    · cases h
    · rw [htf] at h; simp at h
    · cases h
  · intro hmem
    rcases do_transfer_evs o w _ hmem with h | h | h | h
    · cases h
    · cases h
    · rw [htf] at h; simp at h
    · cases h
  · intro t d hmem
    rcases do_transfer_evs o w _ hmem with h | h | h | h
    · cases h
    · cases h
    · rw [htf] at h; simp at h
    · cases h
  · intro hde hpol
    rw [do_transfer_eq]
    simp [hde, handle_overwrite_skip o w hpol]
  · intro hproc
    rw [do_transfer_eq]
    rcases hproc with hde | ⟨hs, hio⟩
    · simp only [hde, Bool.false_eq_true, if_false]
      exact run_transfer_err_fst o w [] _ htf1
    · by_cases hde : w.destExists = true
      · simp only [hde, if_true, handle_overwrite_proceed o w hs hio,
          Bool.false_eq_true, if_false]
        exact run_transfer_err_fst o w _ _ htf1
      · rw [Bool.not_eq_true] at hde
        simp only [hde, Bool.false_eq_true, if_false]
        exact run_transfer_err_fst o w [] _ htf1

/-- C1 witness: the amended theorem applied at a concrete same-file world in
silent-overwrite mode with `ignore_errors`: the same-file error is returned
as data. -/
theorem C1_same_file_guard_witness :
    (do_transfer ⟨true, false, false, false⟩
        ⟨"f", "f", true, false, "", true, true, true, true, 3, none, true, true, true, ""⟩).1 =
      Except.ok (some ⟨samefileMessage "f" "f"⟩) := by
  have h := (C1_same_file_guard ⟨true, false, false, false⟩
    ⟨"f", "f", true, false, "", true, true, true, true, 3, none, true, true, true, ""⟩
    rfl).2.2 (Or.inr ⟨rfl, Or.inl rfl⟩)
  simpa using h

/-! ### Claim C6 -/

/-- C6: with `ignore_errors` set, when the single-file transfer fails with a
`TransferError` (and the overwrite policy let the transfer proceed), the
error is returned as data rather than raised, and the destination file is
removed exactly when the operation is a copy: a tolerated failure during a
move leaves the destination in place. -/
theorem C6_tolerated_failure (o : TOptions) (w : FWorld) (e : TransferError)
    (hig : o.ignore_errors = true) (hrm : w.removeDestOk = true)
    (hfail : (transfer_file o w).1 = Except.error e)
    (hproceed : w.destExists = false ∨
      (o.safe = false ∧ (o.interactive = false ∨ w.userInput = "y"))) :
    (do_transfer o w).1 = Except.ok (some e) ∧
    (Ev.rmDestAfterError true ∈ (do_transfer o w).2 ↔ o.move = false) := by
  have hfst : ∀ oevs, (run_transfer o w oevs).1 = Except.ok (some e) := by
    intro oevs
    rw [run_transfer_err_fst o w oevs e hfail, hig]
    simp
  have htrace_move : o.move = true →
      ∀ oevs, (run_transfer o w oevs).2 = oevs ++ (transfer_file o w).2 := by
    intro hmv oevs
    rw [run_transfer_err o w oevs e hfail, hig, hmv]
    simp
  have htrace_copy : o.move = false →
      ∀ oevs, (run_transfer o w oevs).2 =
        oevs ++ (transfer_file o w).2 ++ [Ev.rmDestAfterError w.removeDestOk] := by
    intro hmv oevs
    rw [run_transfer_err o w oevs e hfail, hig, hmv]
    simp
  have hiff : ∀ oevs, (∀ b : Bool, Ev.rmDestAfterError b ∉ oevs) →
      (Ev.rmDestAfterError true ∈ (run_transfer o w oevs).2 ↔ o.move = false) := by
    intro oevs hoevs
    by_cases hmv : o.move = true
    · rw [htrace_move hmv oevs]
      apply iff_of_false
      · intro hmem
        rcases List.mem_append.mp hmem with h | h
        · exact hoevs true h
        · exact rmDestAfterError_not_in_transfer_file o w true h
      · rw [hmv]; simp
    · rw [Bool.not_eq_true] at hmv
      rw [htrace_copy hmv oevs]
      apply iff_of_true
      · rw [hrm]; simp
      · exact hmv
  have hskip : (handle_overwrite o w).2 = [Ev.warnSkip w.dest] ∨
      (handle_overwrite o w).2 = [] ∨ (handle_overwrite o w).2 = [Ev.prompt w.dest] := by
    unfold handle_overwrite
    split_ifs <;> simp
  have hnotin : ∀ b : Bool, Ev.rmDestAfterError b ∉ (handle_overwrite o w).2 := by
    intro b hmem
    rcases handle_overwrite_evs o w _ hmem with h | h <;> cases h
  rw [do_transfer_eq]
  rcases hproceed with hde | ⟨hs, hio⟩
  · simp only [hde, Bool.false_eq_true, if_false]
    exact ⟨hfst [], hiff [] (by intro b h; simp at h)⟩
  · by_cases hde : w.destExists = true
    · simp only [hde, if_true, handle_overwrite_proceed o w hs hio,
        Bool.false_eq_true, if_false]
      exact ⟨hfst _, hiff _ hnotin⟩
    · rw [Bool.not_eq_true] at hde
      simp only [hde, Bool.false_eq_true, if_false]
      exact ⟨hfst [], hiff [] (by intro b h; simp at h)⟩

/-- C6 witness: the theorem applied at a concrete copy-mode world whose
source fails to open, with `ignore_errors` set. -/
theorem C6_tolerated_failure_witness :
    (do_transfer ⟨true, false, false, false⟩
        ⟨"s", "d", false, false, "", false, false, false, true, 0, none, true, true, true, ""⟩).1 =
      Except.ok (some ⟨openReadMessage "s"⟩) ∧
    (Ev.rmDestAfterError true ∈ (do_transfer ⟨true, false, false, false⟩
        ⟨"s", "d", false, false, "", false, false, false, true, 0, none, true, true, true, ""⟩).2 ↔
      (⟨true, false, false, false⟩ : TOptions).move = false) :=
  C6_tolerated_failure ⟨true, false, false, false⟩
    ⟨"s", "d", false, false, "", false, false, false, true, 0, none, true, true, true, ""⟩
    ⟨openReadMessage "s"⟩ rfl rfl (by decide) (Or.inl rfl)

/-! ### Claim C7 -/

/-- C7, counterexample to the claim as stated: the destination fails to
open; the already-opened source handle is never closed before the
`TransferError` propagates (the trace records the open but no close). -/
theorem C7_counterexample :
    (transfer_file ⟨false, false, false, false⟩
        ⟨"s", "d", false, false, "", false, false, true, false, 3, none, true, true, true, ""⟩).2 =
      [Ev.openSrc] ∧
    Ev.closeSrc ∉ (transfer_file ⟨false, false, false, false⟩
        ⟨"s", "d", false, false, "", false, false, true, false, 3, none, true, true, true, ""⟩).2 ∧
    (transfer_file ⟨false, false, false, false⟩
        ⟨"s", "d", false, false, "", false, false, true, false, 3, none, true, true, true, ""⟩).1 =
      Except.error ⟨openWriteMessage "d"⟩ := by
  decide

/-- C7 (amended): once both opens succeed, both handles are closed on every
exit of the stream copy (success or mid-stream error); but on the early
failure where the destination fails to open, the already-opened source
handle is not closed before the error propagates. -/
theorem C7_handles_closed (o : TOptions) (w : FWorld)
    (hsame : w.same = false) (hlink : w.srcIsLink = false) (hso : w.srcOpenOk = true) :
    (w.destOpenOk = true →
      Ev.closeSrc ∈ (transfer_file o w).2 ∧ Ev.closeDest ∈ (transfer_file o w).2) ∧
    (w.destOpenOk = false →
      Ev.openSrc ∈ (transfer_file o w).2 ∧ Ev.closeSrc ∉ (transfer_file o w).2) := by
  constructor
  · intro hdo
    by_cases h5 : (run_stream w.srcSize w.streamErr).1 = true
    · rw [transfer_file_stream_ok o w hsame hlink hso hdo h5]
      constructor <;> simp
    · rw [Bool.not_eq_true] at h5
      rw [transfer_file_stream_fail o w hsame hlink hso hdo h5]
      constructor <;> simp
  · intro hdo
    rw [transfer_file_noDestOpen o w hsame hlink hso hdo]
    constructor <;> simp

/-- C7 witness: the amended theorem applied at two concrete worlds, one
where both opens succeed (mid-stream error included) and one where the
destination open fails. -/
theorem C7_handles_closed_witness :
    (Ev.closeSrc ∈ (transfer_file ⟨false, false, false, false⟩
        ⟨"s", "d", false, false, "", false, false, true, true, 3,
          some (StreamErr.atRead 0), true, true, true, ""⟩).2 ∧
      Ev.closeDest ∈ (transfer_file ⟨false, false, false, false⟩
        ⟨"s", "d", false, false, "", false, false, true, true, 3,
          some (StreamErr.atRead 0), true, true, true, ""⟩).2) ∧
    (Ev.openSrc ∈ (transfer_file ⟨false, false, false, false⟩
        ⟨"s", "d", false, false, "", false, false, true, false, 3, none, true, true, true, ""⟩).2 ∧
      Ev.closeSrc ∉ (transfer_file ⟨false, false, false, false⟩
        ⟨"s", "d", false, false, "", false, false, true, false, 3, none, true, true, true, ""⟩).2) :=
  ⟨(C7_handles_closed ⟨false, false, false, false⟩
      ⟨"s", "d", false, false, "", false, false, true, true, 3,
        some (StreamErr.atRead 0), true, true, true, ""⟩ rfl rfl rfl).1 rfl,
    (C7_handles_closed ⟨false, false, false, false⟩
      ⟨"s", "d", false, false, "", false, false, true, false, 3, none, true, true, true, ""⟩
      rfl rfl rfl).2 rfl⟩

/-! ### Claim C8 -/

/-- C8: the stream copy of a non-symlink file reads chunks of `buff_size`
(100 KiB) bytes — every chunk except possibly the last is exactly
`buff_size` long, chunk lengths sum to the file size — for each chunk the
progress callback is invoked with the chunk length immediately before the
corresponding write, and at end-of-input the callback is invoked exactly
once with zero. -/
theorem C8_stream_chunks (o : TOptions) (w : FWorld)
    (hsame : w.same = false) (hlink : w.srcIsLink = false)
    (hso : w.srcOpenOk = true) (hdo : w.destOpenOk = true)
    (herr : w.streamErr = none) :
    ∃ ks tail,
      (transfer_file o w).2 =
        [Ev.openSrc, Ev.openDest] ++ evPairs ks ++ [Ev.cb 0] ++
          [Ev.closeSrc, Ev.closeDest] ++ tail ∧
      ks.sum = w.srcSize ∧
      (∀ k ∈ ks, 0 < k ∧ k ≤ buff_size) ∧
      (∀ k ∈ ks.dropLast, k = buff_size) ∧
      (transfer_file o w).2.count (Ev.cb 0) = 1 ∧
      (∀ n, Ev.cb n ∉ tail) ∧ (∀ n, Ev.write n ∉ tail) := by
  have hrun : run_stream w.srcSize w.streamErr =
      (true, evPairs (chunkSizes w.srcSize) ++ [Ev.cb 0]) := by
    rw [herr]; exact run_stream_none w.srcSize
  have h5 : (run_stream w.srcSize w.streamErr).1 = true := by rw [hrun]
  have htf := transfer_file_stream_ok o w hsame hlink hso hdo h5
  have hnotin : Ev.cb 0 ∉ evPairs (chunkSizes w.srcSize) :=
    cb_zero_not_in_evPairs _ (fun k hk => (chunkSizes_pos _ k hk).1)
  refine ⟨chunkSizes w.srcSize,
    (if w.postOk then [Ev.chmod] else [Ev.warnFinalize]) ++
      (if o.move then
        if w.removeSrcOk then [Ev.removeSrc] else [Ev.warnRemoveSrc]
      else []), ?_, chunkSizes_sum w.srcSize, chunkSizes_pos w.srcSize,
    chunkSizes_dropLast w.srcSize, ?_, ?_, ?_⟩
  · rw [htf, hrun]
    simp [List.append_assoc]
  · rw [htf, hrun]
    simp only [List.count_append, List.count_eq_zero_of_not_mem hnotin]
    split <;> split
    all_goals first
      | (split <;> decide)
      | decide
  · intro n hmem
    rcases List.mem_append.mp hmem with h | h
    · split at h <;> simp at h
    · split at h
      · split at h <;> simp at h
      · simp at h
  · intro n hmem
    rcases List.mem_append.mp hmem with h | h
    · split at h <;> simp at h
    · split at h
      · split at h <;> simp at h
      · simp at h

/-- C8 witness: the theorem applied at a concrete 3-byte copy. -/
theorem C8_stream_chunks_witness :
    ∃ ks tail,
      (transfer_file ⟨false, false, false, false⟩
          ⟨"s", "d", false, false, "", false, false, true, true, 3, none,
            true, true, true, ""⟩).2 =
        [Ev.openSrc, Ev.openDest] ++ evPairs ks ++ [Ev.cb 0] ++
          [Ev.closeSrc, Ev.closeDest] ++ tail ∧
      ks.sum = 3 ∧
      (∀ k ∈ ks, 0 < k ∧ k ≤ buff_size) ∧
      (∀ k ∈ ks.dropLast, k = buff_size) ∧
      (transfer_file ⟨false, false, false, false⟩
          ⟨"s", "d", false, false, "", false, false, true, true, 3, none,
            true, true, true, ""⟩).2.count (Ev.cb 0) = 1 ∧
      (∀ n, Ev.cb n ∉ tail) ∧ (∀ n, Ev.write n ∉ tail) :=
  C8_stream_chunks ⟨false, false, false, false⟩
    ⟨"s", "d", false, false, "", false, false, true, true, 3, none, true, true, true, ""⟩
    rfl rfl rfl rfl rfl

/-! ### Claim C10 -/

/-- C10: transferring a symbolic-link source (that is not the same file as
the destination) recreates the link at the destination and returns before
the move-time source removal: even with `move` set, no source removal (nor
a removal-failure warning) is ever performed for a symlink source. -/
theorem C10_move_symlink (o : TOptions) (w : FWorld)
    (hmove : o.move = true) (hlink : w.srcIsLink = true) (hsame : w.same = false) :
    (transfer_file o w).1 = Except.ok () ∧
    Ev.symlinkCreate w.linkTarget w.dest ∈ (transfer_file o w).2 ∧
    Ev.removeSrc ∉ (transfer_file o w).2 ∧
    Ev.warnRemoveSrc ∉ (transfer_file o w).2 := by
  rw [transfer_file_link o w hsame hlink]
  refine ⟨rfl, ?_, ?_, ?_⟩ <;> by_cases hl : w.destLexists = true <;> simp [hl]

/-- C10 witness: the theorem applied to a concrete symlink move. -/
theorem C10_move_symlink_witness :
    (transfer_file ⟨false, true, false, false⟩
        ⟨"s", "d", false, true, "tgt", true, false, true, true, 0, none,
          true, true, true, ""⟩).1 = Except.ok () ∧
    Ev.symlinkCreate "tgt" "d" ∈ (transfer_file ⟨false, true, false, false⟩
        ⟨"s", "d", false, true, "tgt", true, false, true, true, 0, none,
          true, true, true, ""⟩).2 ∧
    Ev.removeSrc ∉ (transfer_file ⟨false, true, false, false⟩
        ⟨"s", "d", false, true, "tgt", true, false, true, true, 0, none,
          true, true, true, ""⟩).2 ∧
    Ev.warnRemoveSrc ∉ (transfer_file ⟨false, true, false, false⟩
        ⟨"s", "d", false, true, "tgt", true, false, true, true, 0, none,
          true, true, true, ""⟩).2 :=
  C10_move_symlink ⟨false, true, false, false⟩
    ⟨"s", "d", false, true, "tgt", true, false, true, true, 0, none, true, true, true, ""⟩
    rfl rfl rfl

/-! ### Claim C2 -/

/-- C2, bug demonstration: a run started through the orchestrator with
`all_files = true` still drops the dot-child from the plan, because
`TransferManager.__init__` constructs its `TransferInfo` without forwarding
`all_files`; calling the planner directly with `all_files = true` keeps the
dot-child, showing the filter itself is controlled by the flag that the
orchestrator fails to pass on. -/
theorem C2_all_files_not_forwarded :
    (TransferManager.mkInfo 3
        [("d", some (FsNode.dir [(".h", FsNode.file 1), ("v", FsNode.file 2)]))]
        "out" ⟨["out"], []⟩ true).to_transfer = [("d/v", "out/d/v", 2)] ∧
    (mkTransferInfo 3
        [("d", some (FsNode.dir [(".h", FsNode.file 1), ("v", FsNode.file 2)]))]
        "out" ⟨["out"], []⟩ true).to_transfer =
      [("d/.h", "out/d/.h", 1), ("d/v", "out/d/v", 2)] := by
  constructor <;> decide

/-! ### Claim C3 -/

/-- C3, counterexample to the claim as stated: a fully successful move run
(no raised exception, empty error mapping) with `ignore_errors = true` does
not remove the recorded source directory: the removal loop is gated on the
`ignore_errors` flag, not on whether any error was actually tolerated. -/
theorem C3_counterexample :
    (TransferManager.do_transfer ⟨true, true, false, false⟩
        [(⟨"s", "d", false, false, "", false, false, true, true, 3, none,
            true, true, true, ""⟩, 3)]
        ["d"] (fun _ => true)).errors = [] ∧
    (TransferManager.do_transfer ⟨true, true, false, false⟩
        [(⟨"s", "d", false, false, "", false, false, true, true, 3, none,
            true, true, true, ""⟩, 3)]
        ["d"] (fun _ => true)).raised = none ∧
    Ev.rmdir "d" ∉ (TransferManager.do_transfer ⟨true, true, false, false⟩
        [(⟨"s", "d", false, false, "", false, false, true, true, 3, none,
            true, true, true, ""⟩, 3)]
        ["d"] (fun _ => true)).events := by
  refine ⟨by decide, by decide, by decide⟩

/-- C3 (amended): after a move run in which `ignore_errors` is false and no
item raised, every directory in the removal list is removed in the recorded
children-before-parents order (provided each `rmdir` succeeds); if an item
raises (aborting the run), or if `ignore_errors` is true — even for a fully
successful move — no directory is ever removed. -/
theorem C3_removal_gated_on_flag (o : TOptions) (items : List (FWorld × Nat))
    (to_remove : List String) (rmdirOk : String → Bool) (hmove : o.move = true) :
    (o.ignore_errors = false → (run_items o items).1 = none →
      (∀ d ∈ to_remove, rmdirOk d = true) →
      (TransferManager.do_transfer o items to_remove rmdirOk).events =
        (run_items o items).2.2 ++ to_remove.map Ev.rmdir ∧
      (TransferManager.do_transfer o items to_remove rmdirOk).rmdirFailed = none) ∧
    (∀ e, (run_items o items).1 = some e →
      ∀ d, Ev.rmdir d ∉ (TransferManager.do_transfer o items to_remove rmdirOk).events) ∧
    (o.ignore_errors = true →
      ∀ d, Ev.rmdir d ∉ (TransferManager.do_transfer o items to_remove rmdirOk).events) := by
  refine ⟨?_, ?_, ?_⟩
  · intro hig hraise hok
    simp [TransferManager.do_transfer, hraise, hmove, hig,
      rmdir_loop_all_ok to_remove rmdirOk hok]
  · intro e hraise d
    simp only [TransferManager.do_transfer, hraise]
    exact rmdir_not_in_run_items o items d
  · intro hig d
    cases hr : (run_items o items).1 with
    | some e =>
      simp only [TransferManager.do_transfer, hr]
      exact rmdir_not_in_run_items o items d
    | none =>
      simp only [TransferManager.do_transfer, hr, hig, Bool.not_true,
        Bool.and_false, Bool.false_eq_true, if_false]
      exact rmdir_not_in_run_items o items d

/-- C3 witness: the amended theorem applied to a concrete successful move
run with `ignore_errors = false` and one directory in the removal list. -/
theorem C3_removal_gated_on_flag_witness :
    (TransferManager.do_transfer ⟨false, true, false, false⟩ [] ["d"]
        (fun _ => true)).events =
      (run_items ⟨false, true, false, false⟩ []).2.2 ++ [Ev.rmdir "d"] ∧
    (TransferManager.do_transfer ⟨false, true, false, false⟩ [] ["d"]
        (fun _ => true)).rmdirFailed = none :=
  (C3_removal_gated_on_flag ⟨false, true, false, false⟩ [] ["d"] (fun _ => true)
    rfl).1 rfl rfl (fun d _ => rfl)

/-! ### Claim C4 -/

/-- C4, counterexample to the claim as stated: planning with a missing
source (`ghost`) and a source of unsupported type (`weird`) does not fail
with any error — the planner has no failure channel at all — it silently
drops both and plans the remaining regular file. -/
theorem C4_counterexample :
    mkTransferInfo 1
        [("ghost", none), ("weird", some FsNode.other), ("a", some (FsNode.file 3))]
        "out" ⟨["out"], []⟩ false =
      { all_files := false, size := 3, to_transfer := [("a", "out/a", 3)],
        to_remove := [], destFs := ⟨["out"], []⟩ } := by
  decide

/-- C4 (amended): planning never fails: a source path that is neither a
regular file nor a directory (missing, or of unsupported type) is silently
dropped from the plan — running `parse` on any source list gives exactly the
result of running it on the sublist of file and directory sources. -/
theorem C4_non_sources_dropped (fuel : Nat) (sources : List (String × Option FsNode))
    (destination : String) (st : TransferInfo) :
    parse fuel sources destination st =
      parse fuel (sources.filter fun s => isfile s.2 || isdir s.2) destination st := by
  cases fuel with
  | zero => rfl
  | succ fuel =>
    have hf : (sources.filter fun s => isfile s.2 || isdir s.2).filter
        (fun x => isfile x.2) = sources.filter (fun x => isfile x.2) := by
      rw [List.filter_filter]
      apply List.filter_congr
      intro a _
      cases h : isfile a.2 <;> simp [h]
    have hd : (sources.filter fun s => isfile s.2 || isdir s.2).filter
        (fun x => isdir x.2) = sources.filter (fun x => isdir x.2) := by
      rw [List.filter_filter]
      apply List.filter_congr
      intro a _
      cases h : isdir a.2 <;> simp [h]
    simp only [parse, hf, hd]

/-! ### Claim C5 -/

/-- C5, counterexample to the claim as stated: a source that is a symbolic
link to a directory IS traversed for content: the target's child `f`
contributes a WorkItem to the plan (and the link path is put on the removal
list); the link itself is never planned as a link copy. -/
theorem C5_counterexample :
    (mkTransferInfo 2 [("s", some (FsNode.symlinkDir [("f", FsNode.file 3)] 1))]
        "out" ⟨["out"], []⟩ false).to_transfer = [("s/f", "out/s/f", 3)] ∧
    (mkTransferInfo 2 [("s", some (FsNode.symlinkDir [("f", FsNode.file 3)] 1))]
        "out" ⟨["out"], []⟩ false).to_remove = ["s"] := by
  constructor <;> decide

/-- C5 (amended): the planner classifies a symbolic link to a directory as
a directory (`os.path.isdir` follows links) and traverses it exactly as it
would the real directory with the same listing: the plans are identical, so
the target's children do contribute WorkItems. -/
theorem C5_symlink_dir_traversed (fuel : Nat) (name : String)
    (children : List (String × FsNode)) (linkSize : Nat) (destination : String)
    (st : TransferInfo) :
    parse fuel [(name, some (FsNode.symlinkDir children linkSize))] destination st =
      parse fuel [(name, some (FsNode.dir children))] destination st := by
  cases fuel with
  | zero => rfl
  | succ fuel => simp [parse, parse_dir, isfile, isdir]

/-! ### Claim C9 -/

/-- C9, counterexample to the claim as stated: planning a symlink source
whose target is 5 bytes and whose link text is 2 bytes records the
WorkItem size 5 — `os.path.getsize` follows the link, so the recorded size
is the target's, not the link's own — while the running total correctly
stays 0. -/
theorem C9_counterexample :
    (mkTransferInfo 1 [("ln", some (FsNode.symlinkFile 5 2))] "out"
        ⟨[], []⟩ false).to_transfer = [("ln", "out", 5)] ∧
    (mkTransferInfo 1 [("ln", some (FsNode.symlinkFile 5 2))] "out"
        ⟨[], []⟩ false).size = 0 ∧
    (5 : Nat) ≠ 2 := by
  refine ⟨by decide, by decide, by decide⟩

/-- C9 (amended): `TransferInfo.add` records `(src, dest, getsize src)`
where `getsize` follows symlinks (for a symlink source it is the target's
size, not the link's own size), and adds that size to the running total
exactly when the source is not a symlink. -/
theorem C9_add_size (st : TransferInfo) (src dest : String) (node : Option FsNode) :
    (st.add src node dest).to_transfer =
      st.to_transfer ++ [(src, dest, optGetsize node)] ∧
    (st.add src node dest).size =
      st.size + (if islink node then 0 else optGetsize node) ∧
    (∀ t l, optGetsize (some (FsNode.symlinkFile t l)) = t) := by
  refine ⟨?_, ?_, fun t l => rfl⟩
  · unfold TransferInfo.add
    split <;> rfl
  · unfold TransferInfo.add
    by_cases h : islink node = true
    · simp [h]
    · rw [Bool.not_eq_true] at h
      simp [h]

end Pycp
